import Mathlib

/-!
# TaskTracker: the task routes

A shallow embedding of `Backend/routes/tasks.js` (the five Express handlers on
`/tasks`) over an explicit document store, and the statements of the task
ownership and CRUD contract about it.

* The store is the list of Task documents in insertion order.
* The Mongoose calls the handlers make (`save`, `find().sort()`, `findOne`,
  `findOneAndUpdate` with `$set` and `new: true`, `findOneAndDelete`) are
  functions on that list that either resolve or reject with a `StoreError`.
* A handler maps its request and the store to an `Outcome`: the HTTP response,
  the store afterwards and what `console.error` printed.

Identifiers (`_id`, `owner`, `req.user._id`, `req.params.id`) are `ObjectId`s that
have already been cast; instants are milliseconds; request fields are taken at
their schema types. Whatever makes the awaited store call reject for a reason
outside the documents themselves (lost connection, a malformed id that cannot be
cast, ...) is the `fault` argument of every store call.

The second part embeds the client logic of `Frontend/src/components/TaskForm.js`
(`handleSubmit`) and `Frontend/src/components/TaskList.js` (`updateStats`,
`toggleTaskStatus`, `getFilteredTasks`, `formatDate`, `isOverdue`): a function of
the component state and of the outcome of the awaited request, returning the new
state and the request sent. Dates are integer millisecond instants. `formatDate`
computes `date - now` and the quotient by a day on IEEE doubles; the integer
arithmetic of the embedding agrees with it as long as the difference is held
exactly, that is for `|date - now| ≤ 2 ^ 53`, and the statements about
`formatDate` carry that bound.
-/

namespace TaskTracker

/-! ## Data model -/

abbrev ObjectId := Nat

abbrev Instant := Int

/-- A stored Task document. -/
structure Task where
  _id : ObjectId
  owner : ObjectId
  title : String
  description : String
  dueDate : Option Instant
  priority : String
  status : String
  createdAt : Instant
deriving DecidableEq, Repr

/-- The collection, in insertion order. -/
abbrev Store := List Task

/-- The JSON object `req.body`: every field of a Task may be present or not. -/
structure Body where
  _id : Option ObjectId := none
  owner : Option ObjectId := none
  title : Option String := none
  description : Option String := none
  dueDate : Option Instant := none
  priority : Option String := none
  status : Option String := none
  createdAt : Option Instant := none
deriving DecidableEq, Repr

/-- A query filter object such as `{ _id: req.params.id, owner: req.user._id }`:
a field that is present must be equal in the document. -/
structure Filter where
  _id : Option ObjectId := none
  owner : Option ObjectId := none
  status : Option String := none
deriving DecidableEq, Repr

/-- Whether a document satisfies a filter object (all present fields agree). -/
def Filter.matches (f : Filter) (t : Task) : Bool :=
  (match f._id with
    | some i => t._id == i
    | none => true) &&
  (match f.owner with
    | some o => t.owner == o
    | none => true) &&
  (match f.status with
    | some s => t.status == s
    | none => true)

/-- The rejections of an awaited store call. -/
inductive StoreError where
  | validation (path : String) (kind : String)
  | duplicateKey (id : ObjectId)
  | immutableField (path : String)
  | driver (detail : String)
deriving DecidableEq, Repr

/-! ## Strings -/

/-- The code points that `String.prototype.trim` strips: ECMAScript WhiteSpace
and LineTerminator. -/
def isWhiteSpace (c : Char) : Bool :=
  let n := c.toNat
  n == 0x09 || n == 0x0A || n == 0x0B || n == 0x0C || n == 0x0D || n == 0x20 ||
  n == 0xA0 || n == 0x1680 || (0x2000 ≤ n && n ≤ 0x200A) || n == 0x2028 ||
  n == 0x2029 || n == 0x202F || n == 0x205F || n == 0x3000 || n == 0xFEFF

/-- Strip white space from both ends of a list of characters. -/
def trimChars (cs : List Char) : List Char :=
  ((cs.dropWhile isWhiteSpace).reverse.dropWhile isWhiteSpace).reverse

/-- The embedding of `String.prototype.trim`. -/
def trim (s : String) : String :=
  ⟨trimChars s.data⟩

/-- JavaScript truthiness of a value that is a string or `undefined`. -/
def truthy : Option String → Bool
  | none => false
  | some s => s != ""

/-! ## The Task schema -/

/-- Modelled from the spec: the enumeration of `priority` in the Task schema
(`models/Task.js` is not among the sources). -/
def priorities : List String := ["Low", "Medium", "High"]

/-- Modelled from the spec: the enumeration of `status` in the Task schema
(`models/Task.js` is not among the sources). -/
def statuses : List String := ["Pending", "Completed"]

/-- An unsaved document, as `new Task(...)` builds it: the schema defaults are
filled in, the required `title` may still be missing. -/
structure Draft where
  _id : ObjectId
  owner : ObjectId
  title : Option String
  description : String
  dueDate : Option Instant
  priority : String
  status : String
  createdAt : Instant
deriving DecidableEq, Repr

/-- Modelled from the spec: the constructor of the Task model (`models/Task.js` is
not among the sources). It takes the object literal the route passes, whose
`owner` is always given, the fresh `_id` the driver generates and the current
time for `createdAt`; `description` defaults to empty, `priority` to Medium,
`status` to Pending. -/
def Task.new (newId : ObjectId) (now : Instant) (title description : Option String)
    (dueDate : Option Instant) (priority status : Option String) (owner : ObjectId) : Draft :=
  { _id := newId
    owner := owner
    title := title
    description := description.getD ""
    dueDate := dueDate
    priority := priority.getD "Medium"
    status := status.getD "Pending"
    createdAt := now }

/-- Modelled from the spec: the validators of the Task schema (`models/Task.js` is
not among the sources): `title` is required, non-empty after trimming white space
and at most 100 characters, `description` at most 500 characters, `priority` and
`status` are restricted to their enumerations. The first failing path rejects. -/
def Draft.validate (d : Draft) : Except StoreError Task :=
  match d.title with
  | none => .error (.validation "title" "required")
  | some title =>
    if trim title == "" then .error (.validation "title" "required")
    else if title.length > 100 then .error (.validation "title" "maxlength")
    else if d.description.length > 500 then .error (.validation "description" "maxlength")
    else if !priorities.contains d.priority then .error (.validation "priority" "enum")
    else if !statuses.contains d.status then .error (.validation "status" "enum")
    else .ok
      { _id := d._id
        owner := d.owner
        title := title
        description := d.description
        dueDate := d.dueDate
        priority := d.priority
        status := d.status
        createdAt := d.createdAt }

/-! ## The store calls -/

/-- The document after `$set: updates`: every field present in the update object
replaces the stored one, every other field stays. (`_id` is handled by the
caller: the store refuses to change it.) -/
def Task.set (t : Task) (updates : Body) : Task :=
  { _id := t._id
    owner := updates.owner.getD t.owner
    title := updates.title.getD t.title
    description := updates.description.getD t.description
    dueDate := match updates.dueDate with
      | some d => some d
      | none => t.dueDate
    priority := updates.priority.getD t.priority
    status := updates.status.getD t.status
    createdAt := updates.createdAt.getD t.createdAt }

/-- Whether `$set: updates` would give the document another `_id`. -/
def changesId (t : Task) (updates : Body) : Bool :=
  match updates._id with
  | some j => j != t._id
  | none => false

/-- Replace the first document that satisfies `p` by `t1`. -/
def replaceFirst (p : Task → Bool) (t1 : Task) : Store → Store
  | [] => []
  | t :: ts => if p t then t1 :: ts else t :: replaceFirst p t1 ts

/-- The order of `.sort({ createdAt: -1 })`: larger `createdAt` first. -/
def newerFirst (a b : Task) : Prop := b.createdAt ≤ a.createdAt

instance : DecidableRel newerFirst := fun a b => inferInstanceAs (Decidable (b.createdAt ≤ a.createdAt))

instance : IsTotal Task newerFirst := ⟨fun a b => Int.le_total b.createdAt a.createdAt⟩

instance : IsTrans Task newerFirst := ⟨fun _ _ _ hab hbc => Int.le_trans hbc hab⟩

/-- The embedding of `.sort({ createdAt: -1 })` on a query result. -/
def sortCreatedAtDesc (ts : List Task) : List Task :=
  ts.insertionSort newerFirst

/-- The embedding of `task.save()` on a new document: the schema validators run,
the unique index on `_id` is checked, the document is appended. -/
def Task.save (fault : Option StoreError) (store : Store) (d : Draft) :
    Except StoreError (Task × Store) :=
  match d.validate with
  | .error e => .error e
  | .ok t =>
    match fault with
    | some e => .error e
    | none =>
      if store.any (fun x => x._id == t._id) then .error (.duplicateKey t._id)
      else .ok (t, store ++ [t])

/-- The embedding of `Task.find(filter)`: every document that satisfies the filter. -/
def Task.find (fault : Option StoreError) (store : Store) (filter : Filter) :
    Except StoreError (List Task) :=
  match fault with
  | some e => .error e
  | none => .ok (store.filter filter.matches)

/-- The embedding of `Task.findOne(filter)`: the first document that satisfies the
filter, or null. -/
def Task.findOne (fault : Option StoreError) (store : Store) (filter : Filter) :
    Except StoreError (Option Task) :=
  match fault with
  | some e => .error e
  | none => .ok (store.find? filter.matches)

/-- The embedding of `Task.findOneAndUpdate(filter, { $set: updates }, { new: true })`:
the first document that satisfies the filter gets the fields of `updates` and is
returned as updated; no validators run (the call does not ask for them); without
a match nothing is written and null is returned. -/
def Task.findOneAndUpdate (fault : Option StoreError) (store : Store) (filter : Filter)
    (updates : Body) : Except StoreError (Option Task × Store) :=
  match fault with
  | some e => .error e
  | none =>
    match store.find? filter.matches with
    | none => .ok (none, store)
    | some t =>
      if changesId t updates then .error (.immutableField "_id")
      else .ok (some (t.set updates), replaceFirst filter.matches (t.set updates) store)

/-- The embedding of `Task.findOneAndDelete(filter)`: the first document that
satisfies the filter is removed and returned; without a match, null. -/
def Task.findOneAndDelete (fault : Option StoreError) (store : Store) (filter : Filter) :
    Except StoreError (Option Task × Store) :=
  match fault with
  | some e => .error e
  | none =>
    match store.find? filter.matches with
    | none => .ok (none, store)
    | some t => .ok (some t, store.eraseP filter.matches)

/-! ## The route handlers -/

/-- What `res.json(...)` serialises. -/
inductive Payload where
  | task (t : Task)
  | tasks (ts : List Task)
  | message (m : String)
deriving DecidableEq, Repr

/-- The HTTP response: status code and JSON body. -/
structure Response where
  status : Nat
  body : Payload
deriving DecidableEq, Repr

/-- The result of running a handler: its response, the store afterwards and the
errors it printed with `console.error`. -/
structure Outcome where
  response : Response
  store : Store
  log : List StoreError
deriving DecidableEq, Repr

/-- The response of every `catch` block: `res.status(500).json({ message: 'Server error' })`. -/
def serverError : Response := ⟨500, .message "Server error"⟩

/-- The response `res.status(404).json({ message: 'Task not found' })`. -/
def taskNotFound : Response := ⟨404, .message "Task not found"⟩

/-- `router.post('/')`: create task. `user` is `req.user._id`; `newId` and `now`
are the `_id` and the clock reading the new document gets. -/
def createTask (fault : Option StoreError) (newId : ObjectId) (now : Instant)
    (store : Store) (user : ObjectId) (body : Body) : Outcome :=
  let task := Task.new newId now body.title body.description body.dueDate
    body.priority body.status user
  match Task.save fault store task with
  | .ok (task, store1) => ⟨⟨201, .task task⟩, store1, []⟩
  | .error err => ⟨serverError, store, [err]⟩

/-- `router.get('/')`: get tasks, with the optional `?status=` filter. -/
def getTasks (fault : Option StoreError) (store : Store) (user : ObjectId)
    (status : Option String) : Outcome :=
  let filter : Filter := { owner := some user }
  let filter : Filter := if truthy status then { filter with status := status } else filter
  match (Task.find fault store filter).map sortCreatedAtDesc with
  | .ok tasks => ⟨⟨200, .tasks tasks⟩, store, []⟩
  | .error err => ⟨serverError, store, [err]⟩

/-- `router.get('/:id')`: get single task. -/
def getTask (fault : Option StoreError) (store : Store) (user id : ObjectId) : Outcome :=
  match Task.findOne fault store { _id := some id, owner := some user } with
  | .ok none => ⟨taskNotFound, store, []⟩
  | .ok (some task) => ⟨⟨200, .task task⟩, store, []⟩
  | .error err => ⟨serverError, store, [err]⟩

/-- `router.put('/:id')`: update task; the whole of `req.body` is the `$set`. -/
def updateTask (fault : Option StoreError) (store : Store) (user id : ObjectId)
    (body : Body) : Outcome :=
  let updates := body
  match Task.findOneAndUpdate fault store { _id := some id, owner := some user } updates with
  | .ok (none, store1) => ⟨taskNotFound, store1, []⟩
  | .ok (some task, store1) => ⟨⟨200, .task task⟩, store1, []⟩
  | .error err => ⟨serverError, store, [err]⟩

/-- `router.delete('/:id')`: delete task. -/
def deleteTask (fault : Option StoreError) (store : Store) (user id : ObjectId) : Outcome :=
  match Task.findOneAndDelete fault store { _id := some id, owner := some user } with
  | .ok (none, store1) => ⟨taskNotFound, store1, []⟩
  | .ok (some _, store1) => ⟨⟨200, .message "Task deleted"⟩, store1, []⟩
  | .error err => ⟨serverError, store, [err]⟩

/-- The unique index on `_id`: no two documents of the store share an `_id`. -/
def Store.WF (store : Store) : Prop :=
  (store.map (fun t => t._id)).Nodup

instance (store : Store) : Decidable store.WF :=
  inferInstanceAs (Decidable (List.Nodup (store.map (fun t : Task => t._id))))

/-- The fields that an update object does not name are equal in `x` and `y`, and
so is `_id`. -/
def unnamedFieldsKept (updates : Body) (x y : Task) : Prop :=
  y._id = x._id
  ∧ (updates.owner = none → y.owner = x.owner)
  ∧ (updates.title = none → y.title = x.title)
  ∧ (updates.description = none → y.description = x.description)
  ∧ (updates.dueDate = none → y.dueDate = x.dueDate)
  ∧ (updates.priority = none → y.priority = x.priority)
  ∧ (updates.status = none → y.status = x.status)
  ∧ (updates.createdAt = none → y.createdAt = x.createdAt)

/-- The fields that an update object names have in `y` the value it gives. -/
def namedFieldsSet (updates : Body) (y : Task) : Prop :=
  (∀ v, updates.owner = some v → y.owner = v)
  ∧ (∀ v, updates.title = some v → y.title = v)
  ∧ (∀ v, updates.description = some v → y.description = v)
  ∧ (∀ v, updates.dueDate = some v → y.dueDate = some v)
  ∧ (∀ v, updates.priority = some v → y.priority = v)
  ∧ (∀ v, updates.status = some v → y.status = v)
  ∧ (∀ v, updates.createdAt = some v → y.createdAt = v)

/-! ## The task form (`Frontend/src/components/TaskForm.js`) -/

/-- The `form` state of the task form: every field is the string of its input. -/
structure Form where
  title : String
  description : String
  dueDate : String
  priority : String
  status : String
deriving DecidableEq, Repr

/-- The component state that `handleSubmit` reads and sets. -/
structure TaskFormState where
  form : Form
  loading : Bool
  error : String
  success : String
deriving DecidableEq, Repr

/-- A request of the form to the API: `API.put('/tasks/' + id, taskData)` or
`API.post('/tasks', taskData)`. -/
inductive ApiCall where
  | put (id : String) (taskData : Form)
  | post (taskData : Form)
deriving DecidableEq, Repr

/-- What a run of `handleSubmit` leaves: the component state, the request it has
sent (if any) and whether it has scheduled the navigation to the list. -/
structure SubmitResult where
  state : TaskFormState
  sent : Option ApiCall
  navigates : Bool
deriving DecidableEq, Repr

/-- `handleSubmit` of the task form. `id` is the route parameter (`isEditing` is
its truthiness), `apiOk` tells whether the awaited request resolves. -/
def handleSubmit (id : Option String) (s : TaskFormState) (apiOk : Bool) : SubmitResult :=
  let isEditing := truthy id
  if trim s.form.title == "" then
    ⟨{ s with error := "Title is required" }, none, false⟩
  else
    let taskData : Form :=
      { s.form with title := trim s.form.title, description := trim s.form.description }
    let call := if isEditing then ApiCall.put (id.getD "") taskData else ApiCall.post taskData
    if apiOk then
      ⟨{ s with
          loading := false
          error := ""
          success := if isEditing then "Task updated successfully!"
            else "Task created successfully!" },
        some call, true⟩
    else
      ⟨{ s with
          loading := false
          error := if isEditing then "Failed to update task" else "Failed to create task" },
        some call, false⟩

/-! ## The task list (`Frontend/src/components/TaskList.js`) -/

/-- The `stats` state of the task list. -/
structure Stats where
  total : Nat
  completed : Nat
  pending : Nat
deriving DecidableEq, Repr

/-- The component state of the task list. -/
structure TaskListState where
  tasks : List Task
  loading : Bool
  error : String
  filter : String
  stats : Stats
deriving DecidableEq, Repr

/-- `updateStats` of the task list. -/
def updateStats (s : TaskListState) : TaskListState :=
  let total := s.tasks.length
  let completed := (s.tasks.filter (fun task => task.status == "Completed")).length
  let pending := (s.tasks.filter (fun task => task.status == "Pending")).length
  { s with stats := ⟨total, completed, pending⟩ }

/-- `getFilteredTasks` of the task list: the `switch` on the `filter` state. -/
def getFilteredTasks (s : TaskListState) : List Task :=
  if s.filter == "completed" then s.tasks.filter (fun task => task.status == "Completed")
  else if s.filter == "pending" then s.tasks.filter (fun task => task.status == "Pending")
  else s.tasks

/-- What a run of `toggleTaskStatus` leaves: the id in the URL and the body of the
PUT request it has sent, and the component state. -/
structure ToggleResult where
  sentId : ObjectId
  sentBody : Task
  state : TaskListState
deriving DecidableEq, Repr

/-- `toggleTaskStatus` of the task list. `response` is the outcome of the awaited
`API.put`: the `response.data` it resolves with, or none when it rejects. -/
def toggleTaskStatus (s : TaskListState) (task : Task) (response : Option Task) : ToggleResult :=
  let newStatus := if task.status == "Completed" then "Pending" else "Completed"
  let body : Task := { task with status := newStatus }
  match response with
  | some data =>
    ⟨task._id, body, { s with tasks := s.tasks.map (fun t => if t._id == task._id then data else t) }⟩
  | none =>
    ⟨task._id, body, { s with error := "Failed to update task status" }⟩

/-- The embedding of `Math.ceil(a / b)` for a positive divisor `b`, on integers
that a double holds exactly. -/
def ceilDiv (a b : Int) : Int :=
  -((-a) / b)

/-- `formatDate` of the task list. `dateString` is none when the task has no due
date (the string is missing or empty) and else the instant `new Date(dateString)`
denotes; `now` is the reading of `new Date()`. The subtraction is the exact one
of the integers: it is the one of the source, which subtracts doubles, when
`|date - now| ≤ 2 ^ 53`; beyond that the source rounds the difference. -/
def formatDate (dateString : Option Instant) (now : Instant) : String :=
  match dateString with
  | none => "No due date"
  | some date =>
    let diffTime := date - now
    let diffDays := ceilDiv diffTime (1000 * 60 * 60 * 24)
    if diffDays < 0 then "Overdue by " ++ toString diffDays.natAbs ++ " day(s)"
    else if diffDays = 0 then "Due today"
    else if diffDays = 1 then "Due tomorrow"
    else "Due in " ++ toString diffDays ++ " day(s)"

/-- `isOverdue` of the task list, with the same reading of its arguments. -/
def isOverdue (dateString : Option Instant) (now : Instant) : Bool :=
  match dateString with
  | none => false
  | some date => decide (date < now)

/-! ## Examples -/

def buyMilk : Task :=
  { _id := 1, owner := 7, title := "Buy milk", description := "", dueDate := none,
    priority := "Medium", status := "Pending", createdAt := 1000 }

def payRent : Task :=
  { _id := 2, owner := 8, title := "Pay rent", description := "flat", dueDate := some 5000,
    priority := "High", status := "Completed", createdAt := 2000 }

def callMum : Task :=
  { _id := 3, owner := 7, title := "Call mum", description := "", dueDate := none,
    priority := "Low", status := "Completed", createdAt := 3000 }

def demoStore : Store := [buyMilk, payRent, callMum]

def demoList : TaskListState :=
  { tasks := demoStore, loading := false, error := "", filter := "all", stats := ⟨0, 0, 0⟩ }

def demoForm : TaskFormState :=
  { form := ⟨"  Buy milk ", " two litres\n", "2026-11-07", "High", "Pending"⟩,
    loading := false, error := "", success := "" }

def blankForm : TaskFormState :=
  { form := ⟨" \t ", "two litres", "", "Medium", "Pending"⟩,
    loading := false, error := "", success := "" }

def waterPlants : Task :=
  { _id := 4, owner := 7, title := "Water plants", description := "", dueDate := none,
    priority := "Medium", status := "Pending", createdAt := 4000 }

example : (getTask none demoStore 7 1).response = ⟨200, .task buyMilk⟩ := by decide
example : (getTask none demoStore 7 2).response = taskNotFound := by decide
example : (getTasks none demoStore 7 none).response = ⟨200, .tasks [callMum, buyMilk]⟩ := by decide
example : (getTasks none demoStore 7 (some "Completed")).response = ⟨200, .tasks [callMum]⟩ := by decide
example : (updateTask none demoStore 7 1 { owner := some 8 }).store = [{ buyMilk with owner := 8 }, payRent, callMum] := by decide
example : (createTask none 4 10 demoStore 7 { title := some "  " }).response = serverError := by decide
example : (createTask none 4 10 demoStore 7 { title := some " x " }).response.status = 201 := by decide
example : formatDate (some 0) 1 = "Due today" := by decide
example : isOverdue (some 0) 1 = true := by decide
example : formatDate (some 0) 86400000 = "Overdue by 1 day(s)" := by decide
example : formatDate (some 1) 0 = "Due tomorrow" := by decide
example : formatDate (some 86400001) 0 = "Due in 2 day(s)" := by decide
example : (handleSubmit none ⟨⟨" a ", " b", "", "Medium", "Pending"⟩, false, "", ""⟩ true).sent
    = some (.post ⟨"a", "b", "", "Medium", "Pending"⟩) := by decide

/-! ## Lemmas on filters and store calls -/

theorem matches_id_owner (i u : ObjectId) (t : Task) :
    Filter.matches { _id := some i, owner := some u } t = (t._id == i && t.owner == u) := by
  simp [Filter.matches]

theorem matches_owner (u : ObjectId) (t : Task) :
    Filter.matches { owner := some u } t = (t.owner == u) := by
  simp [Filter.matches]

theorem matches_owner_status (u : ObjectId) (s : String) (t : Task) :
    Filter.matches { owner := some u, status := some s } t = (t.owner == u && t.status == s) := by
  simp [Filter.matches]

/-- No document satisfies `(id AND owner)` when every document with that id has
another owner (in particular when no document has that id). -/
theorem find?_id_owner_eq_none (store : Store) (u i : ObjectId)
    (h : ∀ t ∈ store, t._id = i → t.owner ≠ u) :
    store.find? (Filter.matches { _id := some i, owner := some u }) = none := by
  rw [List.find?_eq_none]
  intro t ht
  simp only [matches_id_owner, Bool.and_eq_true, beq_iff_eq, not_and]
  exact h t ht

/-- Under the unique index, the lookup `(id AND owner)` of a stored document by
its own id and owner finds that document. -/
theorem find?_id_owner_eq_some (store : Store) (t : Task) (hwf : store.WF) (ht : t ∈ store) :
    store.find? (Filter.matches { _id := some t._id, owner := some t.owner }) = some t := by
  induction store with
  | nil => simp at ht
  | cons x xs ih =>
    simp only [Store.WF, List.map_cons, List.nodup_cons, List.mem_map, not_exists, not_and] at hwf
    rcases List.mem_cons.mp ht with rfl | hmem
    · simp [List.find?_cons, matches_id_owner]
    · have hne : ¬ (x._id = t._id) := fun h => hwf.1 t hmem h.symm
      have hx : Filter.matches { _id := some t._id, owner := some t.owner } x = false := by
        simp [matches_id_owner, hne]
      rw [List.find?_cons, hx]
      exact ih hwf.2 hmem

/-! ## C1: an id owned by somebody else is answered like an absent id -/

/-- C1: if every task of `store` with id `i` is owned by a user other than `u`
(the task exists but is not the requester's) and no task of `store0` has id `j`
(the id is absent), then under every state of the store connection each of Get,
Update (with any body) and Delete answers `i` on `store` exactly as it answers
`j` on `store0` and leaves `store` unchanged; when the store call goes through,
that answer is status 404 with body message 'Task not found'. -/
theorem foreign_id_answered_as_absent_id (fault : Option StoreError) (store store0 : Store)
    (u i j : ObjectId) (body : Body)
    (hforeign : ∀ t ∈ store, t._id = i → t.owner ≠ u)
    (habsent : ∀ t ∈ store0, t._id ≠ j) :
    ((getTask fault store u i).response = (getTask fault store0 u j).response
      ∧ (getTask fault store u i).store = store
      ∧ getTask none store u i = ⟨⟨404, .message "Task not found"⟩, store, []⟩
      ∧ getTask none store0 u j = ⟨⟨404, .message "Task not found"⟩, store0, []⟩)
    ∧ ((updateTask fault store u i body).response = (updateTask fault store0 u j body).response
      ∧ (updateTask fault store u i body).store = store
      ∧ updateTask none store u i body = ⟨⟨404, .message "Task not found"⟩, store, []⟩
      ∧ updateTask none store0 u j body = ⟨⟨404, .message "Task not found"⟩, store0, []⟩)
    ∧ ((deleteTask fault store u i).response = (deleteTask fault store0 u j).response
      ∧ (deleteTask fault store u i).store = store
      ∧ deleteTask none store u i = ⟨⟨404, .message "Task not found"⟩, store, []⟩
      ∧ deleteTask none store0 u j = ⟨⟨404, .message "Task not found"⟩, store0, []⟩) := by
  have h1 := find?_id_owner_eq_none store u i hforeign
  have h2 := find?_id_owner_eq_none store0 u j (fun t ht hid => absurd hid (habsent t ht))
  refine ⟨?_, ?_, ?_⟩
  · cases fault <;>
      simp [getTask, Task.findOne, h1, h2, taskNotFound]
  · cases fault <;>
      simp [updateTask, Task.findOneAndUpdate, h1, h2, taskNotFound]
  · cases fault <;>
      simp [deleteTask, Task.findOneAndDelete, h1, h2, taskNotFound]

/-- Witness of C1 in the example store: task 2 belongs to user 8, id 9 is absent,
the requester is user 7. -/
theorem foreign_id_answered_as_absent_id_witness :
    (∀ t ∈ demoStore, t._id = 2 → t.owner ≠ 7) ∧ (∀ t ∈ demoStore, t._id ≠ 9)
    ∧ getTask none demoStore 7 2 = ⟨⟨404, .message "Task not found"⟩, demoStore, []⟩
    ∧ updateTask none demoStore 7 2 { status := some "Completed" }
        = ⟨⟨404, .message "Task not found"⟩, demoStore, []⟩
    ∧ deleteTask none demoStore 7 2 = ⟨⟨404, .message "Task not found"⟩, demoStore, []⟩
    ∧ (deleteTask none demoStore 7 2).response = (deleteTask none demoStore 7 9).response :=
  have hf : ∀ t ∈ demoStore, t._id = 2 → t.owner ≠ 7 := by decide
  have ha : ∀ t ∈ demoStore, t._id ≠ 9 := by decide
  have h := foreign_id_answered_as_absent_id none demoStore demoStore 7 2 9
    { status := some "Completed" } hf ha
  ⟨hf, ha, h.1.2.2.1, h.2.1.2.2.1, h.2.2.2.2.1, h.2.2.1⟩

/-! ## C2: the owner under Update -/

/-- C2 (the code at a failing input): user 7 owns task 1; the Update of task 1 by
user 7 with the body `{ owner: 8 }` answers 200 with the task now owned by
user 8, and that is what the store holds afterwards: the owner was altered. -/
theorem updateTask_alters_owner :
    buyMilk ∈ demoStore ∧ buyMilk.owner = 7
    ∧ updateTask none demoStore 7 1 { owner := some 8 }
        = ⟨⟨200, .task { buyMilk with owner := 8 }⟩,
            [{ buyMilk with owner := 8 }, payRent, callMum], []⟩
    ∧ (getTask none (updateTask none demoStore 7 1 { owner := some 8 }).store 7 1).response
        = ⟨404, .message "Task not found"⟩
    ∧ (getTask none (updateTask none demoStore 7 1 { owner := some 8 }).store 8 1).response
        = ⟨200, .task { buyMilk with owner := 8 }⟩ := by
  decide

/-! ## C3 and C4: List -/

/-- The answer of List when the store call goes through: the documents that
satisfy the filter, newest first. -/
theorem getTasks_eq (store : Store) (u : ObjectId) (status : Option String) :
    getTasks none store u status
      = ⟨⟨200, .tasks (sortCreatedAtDesc (store.filter (Filter.matches
          (if truthy status then { owner := some u, status := status }
            else { owner := some u }))))⟩, store, []⟩ := by
  unfold getTasks Task.find
  split_ifs <;> rfl

theorem sortCreatedAtDesc_perm (ts : List Task) : (sortCreatedAtDesc ts).Perm ts :=
  List.perm_insertionSort newerFirst ts

theorem sortCreatedAtDesc_sorted (ts : List Task) :
    (sortCreatedAtDesc ts).Sorted (fun a b => a.createdAt ≥ b.createdAt) :=
  List.sorted_insertionSort newerFirst ts

/-- C3: List without a status filter answers 200 with a list that is a
rearrangement of exactly the stored tasks whose owner is the requester (each as
often as it is stored, none of another owner), in descending order of
`createdAt`; the store is unchanged. -/
theorem getTasks_no_filter (store : Store) (u : ObjectId) :
    ∃ ts : List Task,
      getTasks none store u none = ⟨⟨200, .tasks ts⟩, store, []⟩
      ∧ ts.Perm (store.filter (fun t => decide (t.owner = u)))
      ∧ (∀ t, t ∈ ts ↔ t ∈ store ∧ t.owner = u)
      ∧ ts.Sorted (fun a b => a.createdAt ≥ b.createdAt) := by
  have hfilter : store.filter (Filter.matches { owner := some u })
      = store.filter (fun t => decide (t.owner = u)) := by
    congr 1
    funext t
    rw [matches_owner, Bool.eq_iff_iff]
    simp
  refine ⟨sortCreatedAtDesc (store.filter (fun t => decide (t.owner = u))), ?_, ?_, ?_, ?_⟩
  · rw [getTasks_eq, ← hfilter]
    simp [truthy]
  · exact sortCreatedAtDesc_perm _
  · intro t
    rw [(sortCreatedAtDesc_perm _).mem_iff]
    simp
  · exact sortCreatedAtDesc_sorted _

/-- C4: List with a non-empty status value `s` answers 200 with a rearrangement
of exactly the stored tasks owned by the requester whose status is `s`, newest
first (for `s` = Completed: the requester's completed tasks and nothing else);
an empty status value is answered like no filter. -/
theorem getTasks_status_filter (store : Store) (u : ObjectId) (s : String) (hs : s ≠ "") :
    (∃ ts : List Task,
      getTasks none store u (some s) = ⟨⟨200, .tasks ts⟩, store, []⟩
      ∧ ts.Perm (store.filter (fun t => decide (t.owner = u ∧ t.status = s)))
      ∧ (∀ t, t ∈ ts ↔ t ∈ store ∧ t.owner = u ∧ t.status = s)
      ∧ ts.Sorted (fun a b => a.createdAt ≥ b.createdAt))
    ∧ (∃ ts : List Task,
      getTasks none store u (some "Completed") = ⟨⟨200, .tasks ts⟩, store, []⟩
      ∧ ts.Perm (store.filter (fun t => decide (t.owner = u ∧ t.status = "Completed"))))
    ∧ getTasks none store u (some "") = getTasks none store u none := by
  have hfilter : ∀ v : String, store.filter (Filter.matches { owner := some u, status := some v })
      = store.filter (fun t => decide (t.owner = u ∧ t.status = v)) := by
    intro v
    congr 1
    funext t
    rw [matches_owner_status, Bool.eq_iff_iff]
    simp
  refine ⟨⟨sortCreatedAtDesc (store.filter (fun t => decide (t.owner = u ∧ t.status = s))),
    ?_, ?_, ?_, ?_⟩, ⟨sortCreatedAtDesc (store.filter
      (fun t => decide (t.owner = u ∧ t.status = "Completed"))), ?_, ?_⟩, ?_⟩
  · rw [getTasks_eq, ← hfilter]
    simp [truthy, hs]
  · exact sortCreatedAtDesc_perm _
  · intro t
    rw [(sortCreatedAtDesc_perm _).mem_iff]
    simp
  · exact sortCreatedAtDesc_sorted _
  · rw [getTasks_eq, ← hfilter]
    simp [truthy]
  · exact sortCreatedAtDesc_perm _
  · rw [getTasks_eq, getTasks_eq]
    simp [truthy]

/-- Witness of C4 in the example store: the completed tasks of user 7. -/
theorem getTasks_status_filter_witness :
    "Completed" ≠ ""
    ∧ getTasks none demoStore 7 (some "Completed") = ⟨⟨200, .tasks [callMum]⟩, demoStore, []⟩
    ∧ getTasks none demoStore 7 (some "") = getTasks none demoStore 7 none :=
  ⟨by decide, by decide,
    (getTasks_status_filter demoStore 7 "Completed" (by decide)).2.2⟩

/-! ## C5: Create without a usable title -/

/-- A string of white space only (the empty string included) trims to the empty
string. -/
theorem trim_eq_empty (s : String) (h : ∀ c ∈ s.data, isWhiteSpace c = true) : trim s = "" := by
  have hdrop : s.data.dropWhile isWhiteSpace = [] := by
    rw [List.dropWhile_eq_nil_iff]
    exact h
  simp only [trim, trimChars, hdrop]
  rfl

/-- The validators reject a draft whose title is missing or blank at the `title`
path. -/
theorem validate_blank_title (d : Draft)
    (h : ∀ s, d.title = some s → ∀ c ∈ s.data, isWhiteSpace c = true) :
    d.validate = .error (.validation "title" "required") := by
  unfold Draft.validate
  cases hd : d.title with
  | none => rfl
  | some s => simp [trim_eq_empty s (h s hd)]

/-- C5 (as stated, refuted): Create with the white-space title of two blanks is
answered with status 500 and body message 'Server error', not with status 400. -/
theorem createTask_blank_title_not_400 :
    (createTask none 4 10 demoStore 7 { title := some "  " }).response
        = ⟨500, .message "Server error"⟩
    ∧ ¬ ((createTask none 4 10 demoStore 7 { title := some "  " }).response.status = 400
        ∧ (createTask none 4 10 demoStore 7 { title := some "  " }).store = demoStore) := by
  decide

/-- C5 (amended): for every request whose title is missing, empty or white space
only, whatever the rest of the body and the state of the store connection, Create
fails at the title validator: the ValidationError is printed, the caller gets
status 500 with body message 'Server error', and the store is unchanged. -/
theorem createTask_blank_title (fault : Option StoreError) (newId : ObjectId) (now : Instant)
    (store : Store) (u : ObjectId) (body : Body)
    (hblank : ∀ s, body.title = some s → ∀ c ∈ s.data, isWhiteSpace c = true) :
    createTask fault newId now store u body
      = ⟨⟨500, .message "Server error"⟩, store, [.validation "title" "required"]⟩ := by
  have hv := validate_blank_title
    (Task.new newId now body.title body.description body.dueDate body.priority body.status u) hblank
  simp [createTask, Task.save, hv, serverError]

/-- Witness of C5 (amended): a title of a blank, a tab and a blank. -/
theorem createTask_blank_title_witness :
    (∀ s, (some " \t " : Option String) = some s → ∀ c ∈ s.data, isWhiteSpace c = true)
    ∧ createTask none 4 10 demoStore 7 { title := some " \t ", status := some "Pending" }
      = ⟨⟨500, .message "Server error"⟩, demoStore, [.validation "title" "required"]⟩ :=
  have h : ∀ s, (some " \t " : Option String) = some s →
      ∀ c ∈ s.data, isWhiteSpace c = true := by
    intro s hs
    cases hs
    decide
  ⟨h, createTask_blank_title none 4 10 demoStore 7
    { title := some " \t ", status := some "Pending" } h⟩

/-! ## Lemmas on Create and Update -/

/-- What a draft that passes the validators looks like. -/
theorem validate_ok (d : Draft) (t : Task) (h : d.validate = .ok t) :
    d.title = some t.title ∧ t._id = d._id ∧ t.owner = d.owner
    ∧ t.description = d.description ∧ t.dueDate = d.dueDate ∧ t.priority = d.priority
    ∧ t.status = d.status ∧ t.createdAt = d.createdAt
    ∧ trim t.title ≠ "" ∧ t.title.length ≤ 100 ∧ t.description.length ≤ 500
    ∧ t.priority ∈ priorities ∧ t.status ∈ statuses := by
  unfold Draft.validate at h
  split at h
  · cases h
  · rename_i title htitle
    split_ifs at h with h1 h2 h3 h4 h5
    cases h
    simp only [beq_iff_eq] at h1
    simp only [Bool.not_eq_true', List.contains_eq_any_beq, List.any_eq_false, beq_iff_eq,
      not_forall, Classical.not_imp, not_not] at h4 h5
    refine ⟨htitle, rfl, rfl, rfl, rfl, rfl, rfl, rfl, h1, ?_, ?_, ?_, ?_⟩
    · show title.length ≤ 100
      omega
    · show d.description.length ≤ 500
      omega
    · obtain ⟨x, hx, hxe⟩ := h4
      show d.priority ∈ priorities
      rw [hxe]
      exact hx
    · obtain ⟨x, hx, hxe⟩ := h5
      show d.status ∈ statuses
      rw [hxe]
      exact hx

/-- Create answers 201 only when the draft passes the validators, the store call
goes through and the new `_id` is not in use; the validated document is then
appended to the store and returned. -/
theorem createTask_created (fault : Option StoreError) (newId : ObjectId) (now : Instant)
    (store : Store) (u : ObjectId) (body : Body)
    (h : (createTask fault newId now store u body).response.status = 201) :
    ∃ t, (Task.new newId now body.title body.description body.dueDate body.priority
        body.status u).validate = .ok t
      ∧ fault = none ∧ (∀ x ∈ store, x._id ≠ newId)
      ∧ createTask fault newId now store u body = ⟨⟨201, .task t⟩, store ++ [t], []⟩ := by
  unfold createTask Task.save at h ⊢
  cases hv : (Task.new newId now body.title body.description body.dueDate body.priority
      body.status u).validate with
  | error e => simp [hv, serverError] at h
  | ok t =>
    have hid : t._id = newId := (validate_ok _ t hv).2.1
    cases fault with
    | some e => simp [hv, serverError] at h
    | none =>
      by_cases hdup : store.any (fun x => x._id == t._id) = true
      · simp [hv, hdup, serverError] at h
      · refine ⟨t, rfl, rfl, ?_, ?_⟩
        · intro x hx hxid
          apply hdup
          rw [List.any_eq_true]
          exact ⟨x, hx, by simp [hxid, hid]⟩
        · rw [Bool.not_eq_true] at hdup
          simp [hv, hdup]

/-- The converse: a draft that passes the validators, with a fresh `_id` and a
store call that goes through, is created. -/
theorem createTask_of_valid (newId : ObjectId) (now : Instant) (store : Store) (u : ObjectId)
    (body : Body) (t : Task)
    (hv : (Task.new newId now body.title body.description body.dueDate body.priority
        body.status u).validate = .ok t)
    (hfresh : ∀ x ∈ store, x._id ≠ newId) :
    createTask none newId now store u body = ⟨⟨201, .task t⟩, store ++ [t], []⟩ := by
  have hid : t._id = newId := (validate_ok _ t hv).2.1
  have hdup : store.any (fun x => x._id == t._id) = false := by
    rw [List.any_eq_false]
    intro x hx
    simp [hid, hfresh x hx]
  simp [createTask, Task.save, hv, hdup]

/-- Replacing the first match relates the old and the new store position by
position: the match by `R`, every other document by equality. -/
theorem replaceFirst_forall₂ (p : Task → Bool) (t1 : Task) (R : Task → Task → Prop)
    (hrefl : ∀ x, R x x) (store : Store) (t : Task) (hfind : store.find? p = some t)
    (hR : R t t1) : List.Forall₂ R store (replaceFirst p t1 store) := by
  induction store with
  | nil => simp at hfind
  | cons x xs ih =>
    by_cases hx : p x = true
    · have htx : x = t := by simpa [List.find?_cons, hx] using hfind
      subst htx
      simp only [replaceFirst, hx, if_true]
      exact List.Forall₂.cons hR (List.forall₂_same.mpr (fun y _ => hrefl y))
    · have hrest : xs.find? p = some t := by simpa [List.find?_cons, hx] using hfind
      simp only [replaceFirst, hx]
      exact List.Forall₂.cons (hrefl x) (ih hrest)

theorem mem_replaceFirst (p : Task → Bool) (t1 : Task) (store : Store) (t : Task)
    (hfind : store.find? p = some t) : t1 ∈ replaceFirst p t1 store := by
  induction store with
  | nil => simp at hfind
  | cons x xs ih =>
    by_cases hx : p x = true
    · simp [replaceFirst, hx]
    · have hrest : xs.find? p = some t := by simpa [List.find?_cons, hx] using hfind
      simp only [replaceFirst, hx]
      exact List.mem_cons_of_mem _ (ih hrest)

theorem replaceFirst_append (p : Task → Bool) (t1 : Task) (l1 l2 : Store)
    (h : ∀ x ∈ l1, p x = false) :
    replaceFirst p t1 (l1 ++ l2) = l1 ++ replaceFirst p t1 l2 := by
  induction l1 with
  | nil => rfl
  | cons x xs ih =>
    have hx : p x = false := h x (List.mem_cons_self x xs)
    have ih1 := ih (fun y hy => h y (List.mem_cons_of_mem x hy))
    show replaceFirst p t1 (x :: (xs ++ l2)) = x :: (xs ++ replaceFirst p t1 l2)
    simp only [replaceFirst, hx, Bool.false_eq_true, if_false, ih1]

theorem unnamedFieldsKept_refl (body : Body) (x : Task) : unnamedFieldsKept body x x :=
  ⟨rfl, fun _ => rfl, fun _ => rfl, fun _ => rfl, fun _ => rfl, fun _ => rfl, fun _ => rfl,
    fun _ => rfl⟩

theorem unnamedFieldsKept_set (body : Body) (t : Task) : unnamedFieldsKept body t (t.set body) := by
  refine ⟨rfl, ?_, ?_, ?_, ?_, ?_, ?_, ?_⟩ <;> intro h <;> simp [Task.set, h]

theorem namedFieldsSet_set (body : Body) (t : Task) : namedFieldsSet body (t.set body) := by
  refine ⟨?_, ?_, ?_, ?_, ?_, ?_, ?_⟩ <;> intro v h <;> simp [Task.set, h]

/-- Update of a task by its owner, when the store call goes through and the body
does not name another `_id`: the first match gets the `$set`. -/
theorem updateTask_of_find (store : Store) (u i : ObjectId) (body : Body) (t : Task)
    (hfind : store.find? (Filter.matches { _id := some i, owner := some u }) = some t)
    (hid : changesId t body = false) :
    updateTask none store u i body
      = ⟨⟨200, .task (t.set body)⟩,
          replaceFirst (Filter.matches { _id := some i, owner := some u }) (t.set body) store,
          []⟩ := by
  simp [updateTask, Task.findOneAndUpdate, hfind, hid]

/-- The store after any Update, position by position. -/
theorem updateTask_store_forall₂ (fault : Option StoreError) (store : Store) (u i : ObjectId)
    (body : Body) :
    List.Forall₂ (fun x y => unnamedFieldsKept body x y ∧ ((x._id ≠ i ∨ x.owner ≠ u) → y = x))
      store (updateTask fault store u i body).store := by
  have hsame : List.Forall₂
      (fun x y => unnamedFieldsKept body x y ∧ ((x._id ≠ i ∨ x.owner ≠ u) → y = x))
      store store :=
    List.forall₂_same.mpr (fun x _ => ⟨unnamedFieldsKept_refl body x, fun _ => rfl⟩)
  cases fault with
  | some e => simpa [updateTask, Task.findOneAndUpdate] using hsame
  | none =>
    cases hfind : store.find? (Filter.matches { _id := some i, owner := some u }) with
    | none => simpa [updateTask, Task.findOneAndUpdate, hfind] using hsame
    | some t =>
      by_cases hid : changesId t body = true
      · simpa [updateTask, Task.findOneAndUpdate, hfind, hid] using hsame
      · rw [Bool.not_eq_true] at hid
        rw [updateTask_of_find store u i body t hfind hid]
        have hm := List.find?_some hfind
        rw [matches_id_owner] at hm
        simp only [Bool.and_eq_true, beq_iff_eq] at hm
        refine replaceFirst_forall₂ _ _ _
          (fun x => ⟨unnamedFieldsKept_refl body x, fun _ => rfl⟩) store t hfind
          ⟨unnamedFieldsKept_set body t, ?_⟩
        intro hne
        rcases hne with h | h
        · exact absurd hm.1 h
        · exact absurd hm.2 h

/-! ## The unique index is an invariant of the handlers -/

theorem map_id_eq_of_forall₂ (l1 l2 : Store)
    (h : List.Forall₂ (fun x y : Task => y._id = x._id) l1 l2) :
    l2.map (fun t => t._id) = l1.map (fun t => t._id) := by
  induction h with
  | nil => rfl
  | cons hxy _ ih => simp [hxy, ih]

/-- The empty store has unique ids, and every handler keeps the ids unique,
whatever the request and the state of the store connection. -/
theorem handlers_preserve_WF (fault : Option StoreError) (newId : ObjectId) (now : Instant)
    (store : Store) (u i : ObjectId) (body : Body) (status : Option String) (hwf : store.WF) :
    Store.WF []
    ∧ (createTask fault newId now store u body).store.WF
    ∧ (getTasks fault store u status).store.WF
    ∧ (getTask fault store u i).store.WF
    ∧ (updateTask fault store u i body).store.WF
    ∧ (deleteTask fault store u i).store.WF := by
  refine ⟨List.nodup_nil, ?_, ?_, ?_, ?_, ?_⟩
  · by_cases h : (createTask fault newId now store u body).response.status = 201
    · obtain ⟨t, hv, -, hfresh, hout⟩ := createTask_created fault newId now store u body h
      have hid : t._id = newId := (validate_ok _ t hv).2.1
      rw [hout]
      show ((store ++ [t]).map (fun t => t._id)).Nodup
      rw [List.map_append, List.nodup_append]
      refine ⟨hwf, List.nodup_singleton _, ?_⟩
      intro a ha hb
      simp only [List.map_cons, List.map_nil, List.mem_singleton] at hb
      obtain ⟨x, hx, hxa⟩ := List.mem_map.mp ha
      exact hfresh x hx (by rw [hxa, hb, hid])
    · have hstore : (createTask fault newId now store u body).store = store := by
        unfold createTask at h ⊢
        cases hs : Task.save fault store (Task.new newId now body.title body.description
          body.dueDate body.priority body.status u) with
        | error e => simp [hs]
        | ok r => simp [hs] at h
      rw [hstore]
      exact hwf
  · have hstore : (getTasks fault store u status).store = store := by
      unfold getTasks
      cases fault <;> simp [Task.find, Except.map]
    rw [hstore]
    exact hwf
  · have hstore : (getTask fault store u i).store = store := by
      unfold getTask Task.findOne
      cases fault with
      | some e => rfl
      | none =>
        cases store.find? (Filter.matches { _id := some i, owner := some u }) <;> rfl
    rw [hstore]
    exact hwf
  · have hf := (updateTask_store_forall₂ fault store u i body).imp (fun x y hxy => hxy.1.1)
    show ((updateTask fault store u i body).store.map (fun t => t._id)).Nodup
    rw [map_id_eq_of_forall₂ _ _ hf]
    exact hwf
  · have hsub : ((deleteTask fault store u i).store).Sublist store := by
      unfold deleteTask Task.findOneAndDelete
      cases fault with
      | some e => exact List.Sublist.refl _
      | none =>
        cases store.find? (Filter.matches { _id := some i, owner := some u }) with
        | none => exact List.Sublist.refl _
        | some t => exact List.eraseP_sublist store
    exact List.Nodup.sublist (hsub.map _) hwf

/-! ## C6: Update changes the named fields only -/

/-- C6: for every store, requester `u`, id `i`, update body and state of the
store connection,
(1) the store after Update is the store before, position by position, where a
task keeps its `_id` and every field the body does not name, and a task that is
not the task `i` of `u` is unchanged altogether;
(2) if `u` owns the task with id `i` (ids being unique) and the body names no
other `_id`, Update answers 200 with that task in which every named field has
the value of the body and every other field its old value, and the store holds
it;
(3) after a Create that answers 201, an Update with a status only and then a Get
return the created task with its original title and description (those of the
Create body) and the new status. -/
theorem updateTask_changes_named_fields_only (fault : Option StoreError) (store : Store)
    (u i : ObjectId) (body : Body) :
    List.Forall₂ (fun x y => unnamedFieldsKept body x y ∧ ((x._id ≠ i ∨ x.owner ≠ u) → y = x))
      store (updateTask fault store u i body).store
    ∧ (∀ t ∈ store, store.WF → t._id = i → t.owner = u →
        (body._id = none ∨ body._id = some i) →
        ∃ t1, (updateTask none store u i body).response = ⟨200, .task t1⟩
          ∧ t1 ∈ (updateTask none store u i body).store
          ∧ namedFieldsSet body t1 ∧ unnamedFieldsKept body t t1)
    ∧ (∀ (newId : ObjectId) (now : Instant) (body0 : Body) (st : String) (t : Task) (s1 : Store),
        createTask none newId now store u body0 = ⟨⟨201, .task t⟩, s1, []⟩ →
        body0.title = some t.title ∧ t.description = body0.description.getD ""
        ∧ updateTask none s1 u newId { status := some st }
            = ⟨⟨200, .task { t with status := st }⟩, store ++ [{ t with status := st }], []⟩
        ∧ getTask none (updateTask none s1 u newId { status := some st }).store u newId
            = ⟨⟨200, .task { t with status := st }⟩, store ++ [{ t with status := st }], []⟩) := by
  refine ⟨updateTask_store_forall₂ fault store u i body, ?_, ?_⟩
  · intro t ht hwf hti hto hid
    subst hti hto
    have hfind := find?_id_owner_eq_some store t hwf ht
    have hch : changesId t body = false := by
      rcases hid with h | h <;> simp [changesId, h]
    rw [updateTask_of_find store t.owner t._id body t hfind hch]
    exact ⟨t.set body, rfl, mem_replaceFirst _ _ store t hfind, namedFieldsSet_set body t,
      unnamedFieldsKept_set body t⟩
  · intro newId now body0 st t s1 hcreate
    have hstatus : (createTask none newId now store u body0).response.status = 201 := by
      rw [hcreate]
    obtain ⟨t0, hv, -, hfresh, hout⟩ := createTask_created none newId now store u body0 hstatus
    rw [hcreate] at hout
    have ht0 : t0 = t := by
      have := congrArg (fun o => o.response.body) hout
      simp only [Payload.task.injEq] at this
      exact this.symm
    subst ht0
    have hs1 : s1 = store ++ [t0] := congrArg (fun o => o.store) hout
    subst hs1
    have hval := validate_ok _ t0 hv
    have hid : t0._id = newId := hval.2.1
    have how : t0.owner = u := hval.2.2.1
    have hno : ∀ x ∈ store,
        Filter.matches { _id := some newId, owner := some u } x = false := by
      intro x hx
      simp [matches_id_owner, hfresh x hx]
    have hyes : ∀ y : Task, y._id = newId → y.owner = u →
        Filter.matches { _id := some newId, owner := some u } y = true := by
      intro y h1 h2
      simp [matches_id_owner, h1, h2]
    have hnone : store.find? (Filter.matches { _id := some newId, owner := some u }) = none := by
      rw [List.find?_eq_none]
      intro x hx
      simp [hno x hx]
    have hfind : (store ++ [t0]).find? (Filter.matches { _id := some newId, owner := some u })
        = some t0 := by
      simp [List.find?_append, hnone, List.find?_cons, hyes t0 hid how]
    have hset : t0.set { status := some st } = { t0 with status := st } := rfl
    have hupd := updateTask_of_find (store ++ [t0]) u newId { status := some st } t0 hfind rfl
    rw [replaceFirst_append _ _ store [t0] hno, hset] at hupd
    have hrep : replaceFirst (Filter.matches { _id := some newId, owner := some u })
        { t0 with status := st } [t0] = [{ t0 with status := st }] := by
      simp [replaceFirst, hyes t0 hid how]
    rw [hrep] at hupd
    refine ⟨hval.1, hval.2.2.2.1, hupd, ?_⟩
    rw [hupd]
    have hfind2 : (store ++ [{ t0 with status := st }]).find?
        (Filter.matches { _id := some newId, owner := some u }) = some { t0 with status := st } := by
      simp [List.find?_append, hnone, List.find?_cons, hyes { t0 with status := st } hid how]
    simp [getTask, Task.findOne, hfind2]

/-- Witness of C6 in the example store: user 7 completes task 1, and the round
trip of a new task of user 7. -/
theorem updateTask_changes_named_fields_only_witness :
    (updateTask none demoStore 7 1 { status := some "Completed" }).store
      = [{ buyMilk with status := "Completed" }, payRent, callMum]
    ∧ (∃ t1, (updateTask none demoStore 7 1 { status := some "Completed" }).response
          = ⟨200, .task t1⟩
        ∧ t1 ∈ (updateTask none demoStore 7 1 { status := some "Completed" }).store
        ∧ namedFieldsSet { status := some "Completed" } t1
        ∧ unnamedFieldsKept { status := some "Completed" } buyMilk t1)
    ∧ (getTask none (updateTask none
          (createTask none 4 4000 demoStore 7 { title := some "Water plants" }).store 7 4
          { status := some "Completed" }).store 7 4).response
        = ⟨200, .task { waterPlants with status := "Completed" }⟩ :=
  have h := updateTask_changes_named_fields_only none demoStore 7 1 { status := some "Completed" }
  ⟨by decide,
    h.2.1 buyMilk (by decide) (by decide) rfl rfl (Or.inl rfl),
    congrArg Outcome.response
      (h.2.2 4 4000 { title := some "Water plants" } "Completed" waterPlants
        (demoStore ++ [waterPlants]) (by decide)).2.2.2⟩

/-! ## C7: what Create persists -/

/-- A draft with a usable title, a description within its bound and enumerated
priority and status passes the validators unchanged. -/
theorem validate_of_valid (d : Draft) (title : String) (htitle : d.title = some title)
    (hne : trim title ≠ "") (hlen : title.length ≤ 100) (hdesc : d.description.length ≤ 500)
    (hprio : d.priority ∈ priorities) (hstat : d.status ∈ statuses) :
    d.validate = .ok
      { _id := d._id, owner := d.owner, title := title, description := d.description,
        dueDate := d.dueDate, priority := d.priority, status := d.status,
        createdAt := d.createdAt } := by
  have h2 : ¬ title.length > 100 := by omega
  have h3 : ¬ d.description.length > 500 := by omega
  unfold Draft.validate
  rw [htitle]
  simp [hne, h2, h3, hprio, hstat]

/-- C7: for every requester `u`, request body (whatever `owner`, `_id` or
`createdAt` it carries) and state of the store, whenever Create answers 201 it
answers with a task that it has appended to the store, whose owner is `u`,
whose title is the one of the body and whose description, dueDate, priority and
status are those of the body where the body gives them (and the defaults empty,
none, Medium, Pending where it does not); and Create does answer 201 for every
body that passes the validators when the store call goes through and the new id
is not in use. -/
theorem createTask_owner_and_fields (fault : Option StoreError) (newId : ObjectId) (now : Instant)
    (store : Store) (u : ObjectId) (body : Body) :
    ((createTask fault newId now store u body).response.status = 201 →
      ∃ t, createTask fault newId now store u body = ⟨⟨201, .task t⟩, store ++ [t], []⟩
        ∧ t.owner = u ∧ body.title = some t.title
        ∧ t.description = body.description.getD "" ∧ t.dueDate = body.dueDate
        ∧ t.priority = body.priority.getD "Medium" ∧ t.status = body.status.getD "Pending"
        ∧ t._id = newId ∧ t.createdAt = now)
    ∧ (∀ title, body.title = some title → trim title ≠ "" → title.length ≤ 100 →
        (body.description.getD "").length ≤ 500 →
        body.priority.getD "Medium" ∈ priorities → body.status.getD "Pending" ∈ statuses →
        fault = none → (∀ x ∈ store, x._id ≠ newId) →
        (createTask fault newId now store u body).response.status = 201) := by
  constructor
  · intro h
    obtain ⟨t, hv, -, -, hout⟩ := createTask_created fault newId now store u body h
    have hval := validate_ok _ t hv
    exact ⟨t, hout, hval.2.2.1, hval.1, hval.2.2.2.1, hval.2.2.2.2.1, hval.2.2.2.2.2.1,
      hval.2.2.2.2.2.2.1, hval.2.1, hval.2.2.2.2.2.2.2.1⟩
  · intro title htitle hne hlen hdesc hprio hstat hfault hfresh
    subst hfault
    have hv := validate_of_valid
      (Task.new newId now body.title body.description body.dueDate body.priority body.status u)
      title htitle hne hlen hdesc hprio hstat
    rw [createTask_of_valid newId now store u body _ hv hfresh]

/-- Witness of C7: user 7 creates a task with a body that names user 8 as owner. -/
theorem createTask_owner_and_fields_witness :
    createTask none 4 4000 demoStore 7
        { title := some "Water plants", owner := some 8, priority := some "High" }
      = ⟨⟨201, .task { waterPlants with priority := "High" }⟩,
          demoStore ++ [{ waterPlants with priority := "High" }], []⟩
    ∧ ∃ t, createTask none 4 4000 demoStore 7
          { title := some "Water plants", owner := some 8, priority := some "High" }
        = ⟨⟨201, .task t⟩, demoStore ++ [t], []⟩
      ∧ t.owner = 7 ∧ some "Water plants" = some t.title
      ∧ t.description = "" ∧ t.dueDate = none
      ∧ t.priority = "High" ∧ t.status = "Pending"
      ∧ t._id = 4 ∧ t.createdAt = 4000 :=
  ⟨by decide,
    (createTask_owner_and_fields none 4 4000 demoStore 7
      { title := some "Water plants", owner := some 8, priority := some "High" }).1 (by decide)⟩

/-! ## C8: Delete -/

theorem eraseP_eq_erase_of_find (p : Task → Bool) (store : Store) (t : Task)
    (hfind : store.find? p = some t) : store.eraseP p = store.erase t := by
  induction store with
  | nil => simp at hfind
  | cons x xs ih =>
    by_cases hx : p x = true
    · have htx : x = t := by simpa [List.find?_cons, hx] using hfind
      subst htx
      simp [List.eraseP_cons, hx]
    · have hrest : xs.find? p = some t := by simpa [List.find?_cons, hx] using hfind
      have hpt : p t = true := List.find?_some hfind
      have hne : x ≠ t := fun h => hx (h ▸ hpt)
      simp [List.eraseP_cons, hx, List.erase_cons, hne, ih hrest]

/-- Under the unique index two stored documents with the same `_id` are the same. -/
theorem Store.WF.eq_of_id (store : Store) (hwf : store.WF) (x y : Task) (hx : x ∈ store)
    (hy : y ∈ store) (h : x._id = y._id) : x = y :=
  List.inj_on_of_nodup_map hwf hx hy h

/-- C8: for every task `t` of a store with unique ids, Delete by the owner of `t`
with the id of `t` answers 200 with body message 'Task deleted'; the store
afterwards is the store before without `t`: it holds exactly the tasks other
than `t`, is one shorter, and keeps their order; a following Get and a second
Delete by the owner with that id answer 404 'Task not found'. -/
theorem deleteTask_removes_exactly (store : Store) (t : Task) (hwf : store.WF) (ht : t ∈ store) :
    deleteTask none store t.owner t._id = ⟨⟨200, .message "Task deleted"⟩, store.erase t, []⟩
    ∧ (∀ x, x ∈ store.erase t ↔ x ∈ store ∧ x ≠ t)
    ∧ (store.erase t).length + 1 = store.length
    ∧ (store.erase t).Sublist store
    ∧ getTask none (store.erase t) t.owner t._id
        = ⟨⟨404, .message "Task not found"⟩, store.erase t, []⟩
    ∧ deleteTask none (store.erase t) t.owner t._id
        = ⟨⟨404, .message "Task not found"⟩, store.erase t, []⟩ := by
  have hfind := find?_id_owner_eq_some store t hwf ht
  have hnodup : store.Nodup := List.Nodup.of_map _ hwf
  have hmem : ∀ x, x ∈ store.erase t ↔ x ∈ store ∧ x ≠ t := by
    intro x
    rw [hnodup.mem_erase_iff]
    exact and_comm
  have hgone : (store.erase t).find? (Filter.matches { _id := some t._id, owner := some t.owner })
      = none := by
    apply find?_id_owner_eq_none
    intro x hx hid
    have hx2 := (hmem x).mp hx
    exact absurd (Store.WF.eq_of_id store hwf x t hx2.1 ht hid) hx2.2
  refine ⟨?_, hmem, ?_, List.erase_sublist t store, ?_, ?_⟩
  · simp [deleteTask, Task.findOneAndDelete, hfind, eraseP_eq_erase_of_find _ store t hfind]
  · rw [List.length_erase_of_mem ht]
    have : 0 < store.length := List.length_pos_of_mem ht
    omega
  · simp [getTask, Task.findOne, hgone, taskNotFound]
  · simp [deleteTask, Task.findOneAndDelete, hgone, taskNotFound]

/-- Witness of C8 in the example store: user 7 deletes task 1. -/
theorem deleteTask_removes_exactly_witness :
    demoStore.WF ∧ buyMilk ∈ demoStore
    ∧ deleteTask none demoStore 7 1 = ⟨⟨200, .message "Task deleted"⟩, [payRent, callMum], []⟩
    ∧ getTask none (demoStore.erase buyMilk) 7 1
        = ⟨⟨404, .message "Task not found"⟩, demoStore.erase buyMilk, []⟩ :=
  ⟨by decide, by decide, by decide,
    (deleteTask_removes_exactly demoStore buyMilk (by decide) (by decide)).2.2.2.2.1⟩

/-! ## C9: the enumerations under Update -/

/-- C9 (the code at a failing input): task 1 of user 7 has status Pending and
priority Medium; the Update by user 7 with status 'Archived' and priority
'Urgent', both outside their enumerations, is not rejected: it answers 200 and
the store then holds the task with these values. Create with the same status is
rejected by the validators and stores nothing. -/
theorem updateTask_stores_unlisted_status :
    buyMilk.status ∈ statuses ∧ buyMilk.priority ∈ priorities
    ∧ "Archived" ∉ statuses ∧ "Urgent" ∉ priorities
    ∧ updateTask none demoStore 7 1 { status := some "Archived", priority := some "Urgent" }
        = ⟨⟨200, .task { buyMilk with status := "Archived", priority := "Urgent" }⟩,
            [{ buyMilk with status := "Archived", priority := "Urgent" }, payRent, callMum], []⟩
    ∧ createTask none 4 4000 demoStore 7 { title := some "Water plants", status := some "Archived" }
        = ⟨⟨500, .message "Server error"⟩, demoStore, [.validation "status" "enum"]⟩ := by
  decide

/-! ## C10: store failures -/

/-- C10: in each of the five handlers, whenever the awaited store call rejects
with an error `e`, the handler prints `e`, leaves the store as it was, and
answers status 500 with the body message 'Server error', the same for every
`e`. -/
theorem store_failure_answers_server_error (fault : Option StoreError) (newId : ObjectId)
    (now : Instant) (store : Store) (u i : ObjectId) (body : Body) (status : Option String) :
    (∀ e, Task.save fault store (Task.new newId now body.title body.description body.dueDate
          body.priority body.status u) = .error e →
        createTask fault newId now store u body = ⟨⟨500, .message "Server error"⟩, store, [e]⟩)
    ∧ (∀ e filter, Task.find fault store filter = .error e →
        getTasks fault store u status = ⟨⟨500, .message "Server error"⟩, store, [e]⟩)
    ∧ (∀ e, Task.findOne fault store { _id := some i, owner := some u } = .error e →
        getTask fault store u i = ⟨⟨500, .message "Server error"⟩, store, [e]⟩)
    ∧ (∀ e, Task.findOneAndUpdate fault store { _id := some i, owner := some u } body = .error e →
        updateTask fault store u i body = ⟨⟨500, .message "Server error"⟩, store, [e]⟩)
    ∧ (∀ e, Task.findOneAndDelete fault store { _id := some i, owner := some u } = .error e →
        deleteTask fault store u i = ⟨⟨500, .message "Server error"⟩, store, [e]⟩) := by
  refine ⟨?_, ?_, ?_, ?_, ?_⟩
  · intro e h
    simp [createTask, h, serverError]
  · intro e filter h
    cases fault with
    | none => simp [Task.find] at h
    | some e0 =>
      simp only [Task.find, Except.error.injEq] at h
      subst h
      simp [getTasks, Task.find, Except.map, serverError]
  · intro e h
    simp [getTask, h, serverError]
  · intro e h
    simp [updateTask, h, serverError]
  · intro e h
    simp [deleteTask, h, serverError]

/-- Witness of C10: the driver rejects every call with a connection error, and
an Update that names another `_id` is rejected by the store. -/
theorem store_failure_answers_server_error_witness :
    createTask (some (.driver "ECONNRESET 10.0.0.5:27017")) 4 4000 demoStore 7
        { title := some "Water plants" }
      = ⟨⟨500, .message "Server error"⟩, demoStore, [.driver "ECONNRESET 10.0.0.5:27017"]⟩
    ∧ getTasks (some (.driver "ECONNRESET 10.0.0.5:27017")) demoStore 7 none
      = ⟨⟨500, .message "Server error"⟩, demoStore, [.driver "ECONNRESET 10.0.0.5:27017"]⟩
    ∧ getTask (some (.driver "ECONNRESET 10.0.0.5:27017")) demoStore 7 1
      = ⟨⟨500, .message "Server error"⟩, demoStore, [.driver "ECONNRESET 10.0.0.5:27017"]⟩
    ∧ updateTask none demoStore 7 1 { _id := some 2 }
      = ⟨⟨500, .message "Server error"⟩, demoStore, [.immutableField "_id"]⟩
    ∧ deleteTask (some (.driver "ECONNRESET 10.0.0.5:27017")) demoStore 7 1
      = ⟨⟨500, .message "Server error"⟩, demoStore, [.driver "ECONNRESET 10.0.0.5:27017"]⟩ :=
  ⟨(store_failure_answers_server_error (some (.driver "ECONNRESET 10.0.0.5:27017")) 4 4000
      demoStore 7 1 { title := some "Water plants" } none).1 _ rfl,
    (store_failure_answers_server_error (some (.driver "ECONNRESET 10.0.0.5:27017")) 4 4000
      demoStore 7 1 { } none).2.1 _ { } rfl,
    (store_failure_answers_server_error (some (.driver "ECONNRESET 10.0.0.5:27017")) 4 4000
      demoStore 7 1 { } none).2.2.1 _ rfl,
    (store_failure_answers_server_error none 4 4000
      demoStore 7 1 { _id := some 2 } none).2.2.2.1 _ rfl,
    (store_failure_answers_server_error (some (.driver "ECONNRESET 10.0.0.5:27017")) 4 4000
      demoStore 7 1 { } none).2.2.2.2 _ rfl⟩

/-! ## C11: the task form validates and trims the title -/

/-- A string trims to the empty string exactly when it consists of white space
only. -/
theorem trim_eq_empty_iff (s : String) :
    trim s = "" ↔ ∀ c ∈ s.data, isWhiteSpace c = true := by
  constructor
  · intro h
    have hchars : trimChars s.data = [] := congrArg String.data h
    unfold trimChars at hchars
    rw [List.reverse_eq_nil_iff, List.dropWhile_eq_nil_iff] at hchars
    cases hL : s.data.dropWhile isWhiteSpace with
    | nil => exact List.dropWhile_eq_nil_iff.mp hL
    | cons x xs =>
      have hne : s.data.dropWhile isWhiteSpace ≠ [] := by simp [hL]
      have hhead := List.head_dropWhile_not isWhiteSpace s.data hne
      have hx : isWhiteSpace x = true := hchars x (by simp [hL])
      simp [hL, hx] at hhead
  · exact trim_eq_empty s

/-- C11: for every route parameter, form state and outcome of the request,
(1) if the title is empty after trimming white space, `handleSubmit` sets the
error 'Title is required', sends no request, schedules no navigation and leaves
the rest of the state as it was;
(2) otherwise it sends exactly one request (a PUT to the task when editing, a
POST otherwise) whose title and description are the trimmed ones of the form and
whose dueDate, priority and status are those of the form as entered. -/
theorem handleSubmit_validates_and_trims (id : Option String) (s : TaskFormState)
    (apiOk : Bool) :
    (trim s.form.title = "" →
      handleSubmit id s apiOk = ⟨{ s with error := "Title is required" }, none, false⟩)
    ∧ (trim s.form.title ≠ "" →
      ∃ taskData : Form,
        (handleSubmit id s apiOk).sent
          = some (if truthy id then .put (id.getD "") taskData else .post taskData)
        ∧ taskData.title = trim s.form.title
        ∧ taskData.description = trim s.form.description
        ∧ taskData.dueDate = s.form.dueDate
        ∧ taskData.priority = s.form.priority
        ∧ taskData.status = s.form.status
        ∧ (handleSubmit id s apiOk).state.error ≠ "Title is required") := by
  constructor
  · intro h
    simp [handleSubmit, h]
  · intro h
    refine ⟨{ s.form with title := trim s.form.title, description := trim s.form.description },
      ?_, rfl, rfl, rfl, rfl, rfl, ?_⟩
    · unfold handleSubmit
      cases apiOk <;> simp [h]
    · unfold handleSubmit
      cases apiOk <;> cases truthy id <;> simp [h]

/-- Witness of C11: a form with a blank title, and a form whose title and
description carry white space at the ends. -/
theorem handleSubmit_validates_and_trims_witness :
    trim blankForm.form.title = ""
    ∧ handleSubmit none blankForm true = ⟨{ blankForm with error := "Title is required" }, none, false⟩
    ∧ trim demoForm.form.title ≠ ""
    ∧ (handleSubmit (some "42") demoForm true).sent
        = some (.put "42" ⟨"Buy milk", "two litres", "2026-11-07", "High", "Pending"⟩)
    ∧ ∃ taskData : Form,
        (handleSubmit none demoForm false).sent
          = some (if truthy none then .put ((none : Option String).getD "") taskData
              else .post taskData)
        ∧ taskData.title = trim demoForm.form.title
        ∧ taskData.description = trim demoForm.form.description
        ∧ taskData.dueDate = demoForm.form.dueDate
        ∧ taskData.priority = demoForm.form.priority
        ∧ taskData.status = demoForm.form.status
        ∧ (handleSubmit none demoForm false).state.error ≠ "Title is required" :=
  ⟨by decide,
    (handleSubmit_validates_and_trims none blankForm true).1 (by decide),
    by decide, by decide,
    (handleSubmit_validates_and_trims none demoForm false).2 (by decide)⟩

/-! ## C12: the status toggle -/

/-- C12: for every list state, task and outcome of the request,
(1) the status `toggleTaskStatus` sends is Pending when the status of the task is
Completed and Completed otherwise;
(2) for a task whose status is Pending or Completed, toggling the task as sent
once more sends the original status;
(3) the request goes to the id of the task and its body has every other field of
the task unchanged;
(4) when the request resolves with `data`, the new list is the old one position
by position, with `data` at the entries that have the id of the task and every
other entry as it was (so length and order are kept), and the error is as it
was. -/
theorem toggleTaskStatus_sends_and_replaces (s : TaskListState) (task : Task)
    (response : Option Task) :
    (toggleTaskStatus s task response).sentBody.status
        = (if task.status = "Completed" then "Pending" else "Completed")
    ∧ (task.status = "Pending" ∨ task.status = "Completed" →
        ∀ (s2 : TaskListState) (response2 : Option Task),
          (toggleTaskStatus s2 (toggleTaskStatus s task response).sentBody response2).sentBody.status
            = task.status)
    ∧ ((toggleTaskStatus s task response).sentId = task._id
      ∧ (toggleTaskStatus s task response).sentBody._id = task._id
      ∧ (toggleTaskStatus s task response).sentBody.owner = task.owner
      ∧ (toggleTaskStatus s task response).sentBody.title = task.title
      ∧ (toggleTaskStatus s task response).sentBody.description = task.description
      ∧ (toggleTaskStatus s task response).sentBody.dueDate = task.dueDate
      ∧ (toggleTaskStatus s task response).sentBody.priority = task.priority
      ∧ (toggleTaskStatus s task response).sentBody.createdAt = task.createdAt)
    ∧ (∀ data, response = some data →
        (toggleTaskStatus s task response).state.tasks.length = s.tasks.length
        ∧ List.Forall₂ (fun x y => (x._id = task._id → y = data) ∧ (x._id ≠ task._id → y = x))
            s.tasks (toggleTaskStatus s task response).state.tasks
        ∧ (toggleTaskStatus s task response).state.error = s.error) := by
  have hsent : (toggleTaskStatus s task response).sentBody
      = { task with status := if task.status == "Completed" then "Pending" else "Completed" } := by
    cases response <;> rfl
  refine ⟨?_, ?_, ?_, ?_⟩
  · rw [hsent]
    by_cases h : task.status = "Completed" <;> simp [h]
  · intro h s2 response2
    have hsent2 : ∀ t : Task, (toggleTaskStatus s2 t response2).sentBody.status
        = if t.status == "Completed" then "Pending" else "Completed" := by
      intro t
      cases response2 <;> rfl
    rw [hsent2, hsent]
    rcases h with h | h <;> simp [h]
  · rw [hsent]
    refine ⟨?_, rfl, rfl, rfl, rfl, rfl, rfl, rfl⟩
    cases response <;> rfl
  · intro data hdata
    subst hdata
    refine ⟨?_, ?_, rfl⟩
    · simp [toggleTaskStatus]
    · show List.Forall₂ _ s.tasks (s.tasks.map (fun t => if t._id == task._id then data else t))
      rw [List.forall₂_map_right_iff, List.forall₂_same]
      intro x _
      by_cases hx : x._id = task._id <;> simp [hx]

/-- Witness of C12 in the example list: user 7 toggles task 1, the server answers
with the completed task. -/
theorem toggleTaskStatus_sends_and_replaces_witness :
    (buyMilk.status = "Pending" ∨ buyMilk.status = "Completed")
    ∧ (toggleTaskStatus demoList buyMilk (some { buyMilk with status := "Completed" })).sentBody
        = { buyMilk with status := "Completed" }
    ∧ (toggleTaskStatus demoList
          (toggleTaskStatus demoList buyMilk (some { buyMilk with status := "Completed" })).sentBody
          none).sentBody.status = buyMilk.status
    ∧ (toggleTaskStatus demoList buyMilk (some { buyMilk with status := "Completed" })).state.tasks
        = [{ buyMilk with status := "Completed" }, payRent, callMum]
    ∧ (toggleTaskStatus demoList buyMilk
          (some { buyMilk with status := "Completed" })).state.tasks.length = demoList.tasks.length :=
  have h := toggleTaskStatus_sends_and_replaces demoList buyMilk
    (some { buyMilk with status := "Completed" })
  ⟨by decide, by decide, h.2.1 (by decide) demoList none, by decide,
    (h.2.2.2 _ rfl).1⟩

/-! ## C13: the statistics and the filtered list -/

/-- The tasks with status Completed and those with status Pending never outnumber
the list, and they make up the whole list exactly when no task has another
status. -/
theorem completed_add_pending (tasks : List Task) :
    (tasks.filter (fun task => task.status == "Completed")).length
        + (tasks.filter (fun task => task.status == "Pending")).length ≤ tasks.length
    ∧ ((tasks.filter (fun task => task.status == "Completed")).length
        + (tasks.filter (fun task => task.status == "Pending")).length = tasks.length
      ↔ ∀ t ∈ tasks, t.status = "Pending" ∨ t.status = "Completed") := by
  induction tasks with
  | nil => simp
  | cons x xs ih =>
    obtain ⟨hle, hiff⟩ := ih
    have hall : (∀ t ∈ x :: xs, t.status = "Pending" ∨ t.status = "Completed")
        ↔ (x.status = "Pending" ∨ x.status = "Completed")
          ∧ ∀ t ∈ xs, t.status = "Pending" ∨ t.status = "Completed" := by
      simp
    rw [hall, ← hiff]
    by_cases hc : x.status = "Completed"
    · have hp : ¬ x.status = "Pending" := by rw [hc]; decide
      have h1 : (x :: xs).filter (fun task => task.status == "Completed")
          = x :: xs.filter (fun task => task.status == "Completed") :=
        List.filter_cons_of_pos (by simp [hc])
      have h2 : (x :: xs).filter (fun task => task.status == "Pending")
          = xs.filter (fun task => task.status == "Pending") :=
        List.filter_cons_of_neg (by simp [hp])
      rw [h1, h2]
      simp only [List.length_cons, hc, or_true, true_and]
      constructor
      · omega
      · constructor <;> intro h <;> omega
    · by_cases hp : x.status = "Pending"
      · have h1 : (x :: xs).filter (fun task => task.status == "Completed")
            = xs.filter (fun task => task.status == "Completed") :=
          List.filter_cons_of_neg (by simp [hc])
        have h2 : (x :: xs).filter (fun task => task.status == "Pending")
            = x :: xs.filter (fun task => task.status == "Pending") :=
          List.filter_cons_of_pos (by simp [hp])
        rw [h1, h2]
        simp only [List.length_cons, hp, true_or, true_and]
        constructor
        · omega
        · constructor <;> intro h <;> omega
      · have h1 : (x :: xs).filter (fun task => task.status == "Completed")
            = xs.filter (fun task => task.status == "Completed") :=
          List.filter_cons_of_neg (by simp [hc])
        have h2 : (x :: xs).filter (fun task => task.status == "Pending")
            = xs.filter (fun task => task.status == "Pending") :=
          List.filter_cons_of_neg (by simp [hp])
        rw [h1, h2]
        simp only [List.length_cons, hc, hp, or_self, false_and, iff_false]
        constructor <;> omega

/-- C13: for every state of the task list, `updateStats` yields total = the
number of tasks, completed = the length of `getFilteredTasks` under the filter
'completed' and pending = its length under the filter 'pending' (these being
the tasks with status Completed, respectively Pending, in list order);
completed + pending = total exactly when every task has status Pending or
Completed; and under any other filter value `getFilteredTasks` returns the whole
list in its original order. -/
theorem updateStats_counts (s : TaskListState) :
    (updateStats s).stats.total = s.tasks.length
    ∧ (updateStats s).stats.completed
        = (getFilteredTasks { s with filter := "completed" }).length
    ∧ (updateStats s).stats.pending
        = (getFilteredTasks { s with filter := "pending" }).length
    ∧ getFilteredTasks { s with filter := "completed" }
        = s.tasks.filter (fun t => decide (t.status = "Completed"))
    ∧ getFilteredTasks { s with filter := "pending" }
        = s.tasks.filter (fun t => decide (t.status = "Pending"))
    ∧ ((updateStats s).stats.completed + (updateStats s).stats.pending
          = (updateStats s).stats.total
        ↔ ∀ t ∈ s.tasks, t.status = "Pending" ∨ t.status = "Completed")
    ∧ (updateStats s).stats.completed + (updateStats s).stats.pending
        ≤ (updateStats s).stats.total
    ∧ (∀ f : String, f ≠ "completed" → f ≠ "pending" →
        getFilteredTasks { s with filter := f } = s.tasks) := by
  have hbeq : ∀ v : String, (fun t : Task => t.status == v) = (fun t => decide (t.status = v)) := by
    intro v
    funext t
    rw [Bool.eq_iff_iff]
    simp
  have hcount := completed_add_pending s.tasks
  refine ⟨rfl, ?_, ?_, ?_, ?_, hcount.2, hcount.1, ?_⟩
  · simp [updateStats, getFilteredTasks]
  · simp [updateStats, getFilteredTasks]
  · simp [getFilteredTasks, hbeq]
  · simp [getFilteredTasks, hbeq]
  · intro f h1 h2
    simp [getFilteredTasks, h1, h2]

/-- Witness of C13 in the example list (one Pending task, two Completed) and in a
list with a task of another status. -/
theorem updateStats_counts_witness :
    (updateStats demoList).stats = ⟨3, 2, 1⟩
    ∧ (∀ t ∈ demoList.tasks, t.status = "Pending" ∨ t.status = "Completed")
    ∧ (updateStats { demoList with tasks := [{ buyMilk with status := "Archived" }, payRent] }).stats
        = ⟨2, 1, 0⟩
    ∧ getFilteredTasks { demoList with filter := "completed" } = [payRent, callMum]
    ∧ getFilteredTasks { demoList with filter := "all" } = demoList.tasks :=
  ⟨by decide,
    (updateStats_counts demoList).2.2.2.2.2.1.mp (by decide),
    by decide, by decide,
    (updateStats_counts demoList).2.2.2.2.2.2.2 "all" (by decide) (by decide)⟩

/-! ## C14: the due-date label and the overdue flag -/

/-- On integers `ceilDiv` is the ceiling of the exact quotient. -/
theorem ceilDiv_eq_ceil (a b : Int) (hb : 0 < b) : ceilDiv a b = ⌈(a : ℚ) / (b : ℚ)⌉ := by
  unfold ceilDiv
  symm
  rw [Int.ceil_eq_iff]
  have hbq : (0 : ℚ) < (b : ℚ) := by exact_mod_cast hb
  have h1 : (-a) / b * b ≤ -a := Int.ediv_mul_le _ (ne_of_gt hb)
  have h2 : -a < ((-a) / b + 1) * b := Int.lt_ediv_add_one_mul_self _ hb
  constructor
  · rw [lt_div_iff₀ hbq]
    have : (-((-a) / b) - 1) * b < a := by linarith
    exact_mod_cast this
  · rw [div_le_iff₀ hbq]
    have : a ≤ -((-a) / b) * b := by linarith
    exact_mod_cast this

/-- The label of a date that is not a whole day in the past starts with `D`. -/
theorem formatDate_head_of_not_neg (d now : Instant)
    (h : ¬ ceilDiv (d - now) (1000 * 60 * 60 * 24) < 0) :
    (formatDate (some d) now).data.head? = some 'D' := by
  unfold formatDate
  simp only [h, if_false]
  split_ifs <;> rfl

/-- The label of a date a whole day or more in the past. -/
theorem formatDate_of_neg (d now : Instant) (h : ceilDiv (d - now) (1000 * 60 * 60 * 24) < 0) :
    formatDate (some d) now
      = "Overdue by " ++ toString (ceilDiv (d - now) (1000 * 60 * 60 * 24)).natAbs ++ " day(s)" := by
  unfold formatDate
  simp only [h, if_true]

/-- C14 (as stated, refuted): a task due at 2026-11-06 00:00 UTC, looked at on the
same day at noon (and likewise a date one millisecond in the past): `isOverdue`
is true, the label is 'Due today' and no 'Overdue by n day(s)' label. -/
theorem formatDate_due_today_but_isOverdue :
    formatDate (some 1793923200000) 1793966400000 = "Due today"
    ∧ isOverdue (some 1793923200000) 1793966400000 = true
    ∧ formatDate (some 0) 1 = "Due today" ∧ isOverdue (some 0) 1 = true
    ∧ ¬ ((∃ n : Nat, formatDate (some 1793923200000) 1793966400000
            = "Overdue by " ++ toString n ++ " day(s)")
          ↔ isOverdue (some 1793923200000) 1793966400000 = true) := by
  refine ⟨by decide, by decide, by decide, by decide, ?_⟩
  intro hiff
  obtain ⟨n, hn⟩ := hiff.mpr (by decide)
  have hhead := congrArg (fun l : String => l.data.head?) hn
  have hO : ("Overdue by " ++ toString n ++ " day(s)").data.head? = some 'O' := rfl
  have hD : (formatDate (some 1793923200000) 1793966400000).data.head? = some 'D' := by decide
  simp only [hO, hD, Option.some.injEq] at hhead
  exact absurd hhead (by decide)

/-- C14 (amended): for every due date `d` and current time `now` in milliseconds
with `|d - now| ≤ 2 ^ 53` (the range in which the source computes the difference
exactly), with diffDays = ceil((d - now) / 86400000):
`formatDate` returns an 'Overdue by n day(s)' label if and only if diffDays < 0,
that is if and only if `d` lies at least 86400000 ms before `now`, the `n` of the
label is then the absolute value of diffDays, and `isOverdue` is then true;
the label is 'Due today' when diffDays = 0 and 'Due tomorrow' when diffDays = 1;
`isOverdue` is `d < now`; a missing date gives 'No due date' and not overdue. -/
theorem formatDate_overdue_implies_isOverdue (d now : Int)
    (hrange : (d - now).natAbs ≤ 2 ^ 53) :
    ceilDiv (d - now) (1000 * 60 * 60 * 24) = ⌈((d - now : Int) : ℚ) / 86400000⌉
    ∧ ((∃ n : Nat, formatDate (some d) now = "Overdue by " ++ toString n ++ " day(s)")
        ↔ ceilDiv (d - now) (1000 * 60 * 60 * 24) < 0)
    ∧ (ceilDiv (d - now) (1000 * 60 * 60 * 24) < 0 ↔ d + 86400000 ≤ now)
    ∧ (ceilDiv (d - now) (1000 * 60 * 60 * 24) < 0 →
        formatDate (some d) now = "Overdue by "
          ++ toString (ceilDiv (d - now) (1000 * 60 * 60 * 24)).natAbs ++ " day(s)")
    ∧ ((∃ n : Nat, formatDate (some d) now = "Overdue by " ++ toString n ++ " day(s)")
        → isOverdue (some d) now = true)
    ∧ (ceilDiv (d - now) (1000 * 60 * 60 * 24) = 0 → formatDate (some d) now = "Due today")
    ∧ (ceilDiv (d - now) (1000 * 60 * 60 * 24) = 1 → formatDate (some d) now = "Due tomorrow")
    ∧ (isOverdue (some d) now = true ↔ d < now)
    ∧ formatDate none now = "No due date" ∧ isOverdue none now = false := by
  have _ := hrange
  have hneg : ceilDiv (d - now) (1000 * 60 * 60 * 24) < 0 ↔ d + 86400000 ≤ now := by
    unfold ceilDiv
    omega
  have hlabel : (∃ n : Nat, formatDate (some d) now = "Overdue by " ++ toString n ++ " day(s)")
      ↔ ceilDiv (d - now) (1000 * 60 * 60 * 24) < 0 := by
    constructor
    · rintro ⟨n, hn⟩
      by_contra hge
      have hD := formatDate_head_of_not_neg d now hge
      have hO : ("Overdue by " ++ toString n ++ " day(s)").data.head? = some 'O' := rfl
      rw [hn, hO] at hD
      exact absurd (Option.some.inj hD) (by decide)
    · intro h
      exact ⟨_, formatDate_of_neg d now h⟩
  have hover : isOverdue (some d) now = true ↔ d < now := by
    simp [isOverdue]
  refine ⟨?_, hlabel, hneg, formatDate_of_neg d now, ?_, ?_, ?_, hover, rfl, rfl⟩
  · have h := ceilDiv_eq_ceil (d - now) (1000 * 60 * 60 * 24) (by norm_num)
    rw [h]
    norm_num
  · intro h
    have h1 := hneg.mp (hlabel.mp h)
    rw [hover]
    omega
  · intro h
    unfold formatDate
    simp only [h]
    rfl
  · intro h
    unfold formatDate
    simp only [h]
    rfl

/-- Witness of C14 (amended): a task due at 2026-11-06 00:00 UTC, looked at two
days and one hour later. -/
theorem formatDate_overdue_implies_isOverdue_witness :
    ((1793923200000 : Int) - 1794099600000).natAbs ≤ 2 ^ 53
    ∧ ceilDiv (1793923200000 - 1794099600000) (1000 * 60 * 60 * 24) < 0
    ∧ formatDate (some 1793923200000) 1794099600000 = "Overdue by 2 day(s)"
    ∧ isOverdue (some 1793923200000) 1794099600000 = true :=
  have h := formatDate_overdue_implies_isOverdue 1793923200000 1794099600000 (by decide)
  ⟨by decide, by decide, by decide, h.2.2.2.2.1 (h.2.1.mpr (by decide))⟩

end TaskTracker
